import Mathlib

/-!
# Shallow embedding of the `esgea` game core (`src/lib.rs`)

The Rust core is a turn-based hidden-movement game engine: an undirected
graph of `Location`s, a roster of `Player`s, and an observation ledger
(`Event`).  We embed the data model and the action-resolution functions as
executable Lean definitions.  Machine integers (`u32` intel, `usize` ids)
are modelled as `Nat`; `saturating_sub` is `Nat` truncated subtraction.
Rust panics (out-of-bounds indexing, `unwrap`/`expect`) are modelled by
returning `none`:  every resolver entry point returns an `Option`.
`VecMap<PlayerId, Vec<Observation>>` is modelled as a total function
`Nat → List Observation` defaulting to the empty queue.
-/

namespace Esgea

/- `type Intel = u32`, `type PlayerId = usize` and `petgraph`'s `NodeIndex`
are all modelled as plain `Nat` (node handles are positions in the node
list; intel is a non-negative integer with saturating subtraction). -/

/-- `enum GameError { NotEnoughIntel, NotYourTurn, WouldNoop }`. -/
inductive GameError where
  | NotEnoughIntel
  | NotYourTurn
  | WouldNoop
deriving DecidableEq, Repr

/-- `type GameResult = Result<(), GameError>`. -/
abbrev GameResult := Except GameError Unit

/-- `enum IntelKind { HideSignals, Reveal, Invisible, Prepare }`. -/
inductive IntelKind where
  | HideSignals
  | Reveal
  | Invisible
  | Prepare
deriving DecidableEq, Repr

/-- `IntelKind::cost`. -/
def IntelKind.cost : IntelKind → Nat
  | .HideSignals => 2
  | .Reveal => 1
  | .Invisible => 2
  | .Prepare => 0

/-- `struct Location`. -/
structure Location where
  pending_powerup : Option Nat
  boost : Bool
  base_income : Nat
  name : String
  index : Nat
  control : Option Nat
deriving DecidableEq, Repr

instance : Inhabited Location :=
  ⟨{ pending_powerup := none, boost := false, base_income := 0,
     name := "", index := 0, control := none }⟩

/-- `struct Player` (with `#[derive(Default)]`: all flags false, intel 0). -/
structure Player where
  alive : Bool
  intel : Nat
  hidden_signals : Bool
  visible_violence : Bool
  active_scan : Bool
  concealed : Bool
  invisible : Bool
  id : Nat
  location : Nat
deriving DecidableEq, Repr

instance : Inhabited Player :=
  ⟨{ alive := false, intel := 0, hidden_signals := false,
     visible_violence := false, active_scan := false, concealed := false,
     invisible := false, id := 0, location := 0 }⟩

/-- `enum Observation`: the per-recipient facts recorded in the ledger. -/
inductive Observation where
  | Death (by_ : Nat) (of : Nat)
  | Strike (by_ : Option Nat) (at_ : Option Nat)
  | WaitMove (by_ : Option Nat)
  | Capture (by_ : Nat) (at_ : Nat)
  | Intel (by_ : Option Nat) (kind : Option IntelKind)
  | Reveal (who : Nat) (at_ : Nat)
  | RevealFailure (who : Nat)
deriving DecidableEq, Repr

/-- `enum Action`. -/
inductive Action where
  | Strike
  | Wait
  | Capture
  | HideSignals
  | Invisible
  | Prepare
  | Move (dest : Nat)
  | Reveal (target : Option Nat)
deriving DecidableEq, Repr

/-- `struct Event`: private per-player queues plus one public queue.  The
`VecMap` of private queues is modelled as a total function with default
`[]`. -/
structure Event where
  private_observations : Nat → List Observation
  public_observations : List Observation

/-- `Event::default()`. -/
def Event.default : Event :=
  { private_observations := fun _ => [], public_observations := [] }

/-- `Event::note`: append `obs` to `pid`'s private queue. -/
def Event.note (e : Event) (pid : Nat) (obs : Observation) : Event :=
  { e with private_observations := fun p =>
      if p = pid then e.private_observations p ++ [obs]
      else e.private_observations p }

/-- `Event::broadcast`: append `obs` to the public queue. -/
def Event.broadcast (e : Event) (obs : Observation) : Event :=
  { e with public_observations := e.public_observations ++ [obs] }

/-- `UnGraph<Location, ()>`: node list plus a list of (unordered) edges,
kept as ordered pairs in insertion order, matching petgraph's edge arena. -/
structure UnGraphL where
  nodes : List Location
  edges : List (Nat × Nat)

/-- Does edge record `e` connect `a` and `b` (in either orientation)?  This
is petgraph's undirected edge-matching criterion. -/
def edgeMatches (a b : Nat) (e : Nat × Nat) : Bool :=
  (e.1 == a && e.2 == b) || (e.1 == b && e.2 == a)

/-- `Graph::find_edge` on an undirected graph: the first edge joining `a`
and `b`, if any. -/
def UnGraphL.find_edge (g : UnGraphL) (a b : Nat) :
    Option (Nat × Nat) :=
  g.edges.find? (edgeMatches a b)

/-- `Graph::add_edge` (panics — `none` — if an endpoint is out of
bounds). -/
def UnGraphL.add_edge (g : UnGraphL) (a b : Nat) : Option UnGraphL :=
  if a < g.nodes.length ∧ b < g.nodes.length then
    some { g with edges := g.edges ++ [(a, b)] }
  else none

/-- Number of edge records joining `a` and `b`. -/
def UnGraphL.edgeCount (g : UnGraphL) (a b : Nat) : Nat :=
  (g.edges.filter (edgeMatches a b)).length

/-- `struct Game`. -/
structure Game where
  cities : UnGraphL
  players : List Player
  event : Event

/-- `Game::new()`. -/
def Game.new : Game :=
  { cities := { nodes := [], edges := [] }, players := [],
    event := Event.default }

/-- `Game::add_location`: push a fresh node and record its own index in it. -/
def Game.add_location (g : Game) (name : String) (base_income : Nat) :
    Nat × Game :=
  let index := g.cities.nodes.length
  let loc : Location :=
    { pending_powerup := none, boost := false, base_income := base_income,
      name := name, index := index, control := none }
  (index, { g with cities := { g.cities with nodes := g.cities.nodes ++ [loc] } })

/-- `Game::connect_locations`: insert an edge unless one already joins `a`
and `b`. -/
def Game.connect_locations (g : Game) (a b : Nat) : Option Game :=
  if (g.cities.find_edge a b).isNone then
    (g.cities.add_edge a b).map (fun c => { g with cities := c })
  else some g

/-- `Game::spawn_player`: append a default-flag player at `start_at` with
identity = current roster length. -/
def Game.spawn_player (g : Game) (start_at : Nat) : Nat × Game :=
  let pid := g.players.length
  let player : Player :=
    { (default : Player) with alive := true, id := pid, location := start_at }
  (pid, { g with players := g.players ++ [player] })

/-- `Player::purchase`: fail (balance untouched) when cost exceeds intel,
otherwise saturating-subtract the cost. -/
def Player.purchase (p : Player) (which : IntelKind) : GameResult × Player :=
  if which.cost > p.intel then (.error .NotEnoughIntel, p)
  else (.ok (), { p with intel := p.intel - which.cost })

/-- `Game::note` (delegates to the event ledger). -/
def Game.note (g : Game) (pid : Nat) (obs : Observation) : Game :=
  { g with event := g.event.note pid obs }

/-- `Game::broadcast`. -/
def Game.broadcast (g : Game) (obs : Observation) : Game :=
  { g with event := g.event.broadcast obs }

/-- `Game::try_move`: fail (returning `false`) when no edge joins the
player's location and `dest`; otherwise relocate and, under `active_scan`,
privately reveal each non-invisible co-located player to the mover.
`none` models the out-of-bounds panic on `pid`. -/
def Game.try_move (g : Game) (pid : Nat) (dest : Nat) :
    Option (Bool × Game) :=
  (g.players.get? pid).map (fun pl =>
    if (g.cities.find_edge pl.location dest).isNone then (false, g)
    else
      let players1 := g.players.set pid { pl with location := dest }
      let g1 : Game := { g with players := players1 }
      let obs :=
        if (players1.getD pid default).active_scan then
          (players1.filter (fun q =>
            dest == q.location && q.id != pid && !q.invisible)).map
            (fun q => Observation.Reveal q.id q.location)
        else []
      (true, obs.foldl (fun g o => g.note pid o) g1))

/-- One iteration of the `for p in &mut self.players` loop of
`Game::start_turn`: reveal/unconceal a co-located non-invisible other
player, and credit income / clear invisibility on `pid`'s own record. -/
def startTurnStep (pid : Nat) (curIdx : Nat) (income : Nat)
    (acc : List Player × Event) (p : Player) : List Player × Event :=
  let st :=
    if p.id ≠ pid ∧ ¬p.invisible ∧ curIdx = p.location then
      ({ p with concealed := false },
       acc.2.note pid (Observation.Reveal p.id p.location))
    else (p, acc.2)
  let p1 :=
    if st.1.id = pid then
      { st.1 with intel := st.1.intel + income, invisible := false }
    else st.1
  (acc.1 ++ [p1], st.2)

/-- `Game::start_turn`: income = base income of controlled locations plus
the pending powerup at the current city; reveal co-located players; clear
the player's own invisibility.  `none` models the `expect("moved OOB")`
panic and the roster indexing panic. -/
def Game.start_turn (g : Game) (pid : Nat) : Option Game :=
  (g.players.get? pid).bind (fun pl =>
    (g.cities.nodes.get? pl.location).map (fun curCity =>
      let income :=
        ((g.cities.nodes.filter (fun c => c.control == some pid)).map
          (fun c => c.base_income)).sum + curCity.pending_powerup.getD 0
      let acc := g.players.foldl (startTurnStep pid curCity.index income)
        ([], g.event)
      { g with players := acc.1, event := acc.2 }))

/-- `Game::intel_reveal`: broadcast an intel-spend notice; the kind is
withheld when the spender's `hidden_signals` flag is (currently) set. -/
def Game.intel_reveal (g : Game) (pid : Nat) (intel_kind : IntelKind) :
    Option Game :=
  (g.players.get? pid).map (fun pl =>
    let kind := if pl.hidden_signals then none else some intel_kind
    g.broadcast (Observation.Intel (some pid) kind))

/-- One iteration of the `for pl in 0..self.players.len()` loop of
`Game::strike`:  kill a co-located other player (noting a Death to both
sides), then send the per-player Strike observation with the location
included exactly when `visible_violence || !alive`. -/
def strikeStep (pid : Nat) (g : Game) (pl : Nat) : Game :=
  if pl ≠ pid then
    let g1 :=
      if (g.players.getD pid default).location
          = (g.players.getD pl default).location then
        let ded := Observation.Death pid pl
        ({ g with players :=
            g.players.set pl { g.players.getD pl default with alive := false } }
          |>.note pid ded |>.note pl ded)
      else g
    if (g1.players.getD pl default).visible_violence
        || !(g1.players.getD pl default).alive then
      g1.note pl (Observation.Strike (some pid)
        (some (g1.players.getD pid default).location))
    else
      g1.note pl (Observation.Strike (some pid) none)
  else g

/-- `Game::strike`.  `none` models the indexing panic on an invalid
`pid`. -/
def Game.strike (g : Game) (pid : Nat) : Option Game :=
  if pid < g.players.length then
    some ((List.range g.players.length).foldl (strikeStep pid) g)
  else none

/-- `Game::wait`: broadcast a public wait notice. -/
def Game.wait (g : Game) (pid : Nat) : Game :=
  g.broadcast (Observation.WaitMove (some pid))

/-- `Game::capture`: unconditionally take control of the current location
and broadcast it.  `none` models the `unwrap` / indexing panics. -/
def Game.capture (g : Game) (pid : Nat) : Option Game :=
  (g.players.get? pid).bind (fun pl =>
    (g.cities.nodes.get? pl.location).map (fun loc =>
      ({ g with cities := { g.cities with nodes :=
          (g.cities.nodes.set pl.location { loc with control := some pid }) } }
        |>.broadcast (Observation.Capture pid pl.location))))

/-- `Game::hide_signals`: `WouldNoop` when already hidden; otherwise
purchase, emit the intel-spend notice, and only then set the flag. -/
def Game.hide_signals (g : Game) (pid : Nat) :
    Option (GameResult × Game) :=
  (g.players.get? pid).bind (fun pl =>
    if pl.hidden_signals then some (.error .WouldNoop, g)
    else
      let pr := pl.purchase .HideSignals
      let g1 : Game := { g with players := g.players.set pid pr.2 }
      match pr.1 with
      | .error e => some (.error e, g1)
      | .ok _ =>
        (g1.intel_reveal pid .HideSignals).map (fun g2 =>
          (.ok (), { g2 with players := (g2.players.set pid
            { g2.players.getD pid default with hidden_signals := true }) })))

/-- `Game::invisible_action`: `WouldNoop` when already invisible; otherwise
purchase, emit the intel-spend notice, then set the flag. -/
def Game.invisible_action (g : Game) (pid : Nat) :
    Option (GameResult × Game) :=
  (g.players.get? pid).bind (fun pl =>
    if pl.invisible then some (.error .WouldNoop, g)
    else
      let pr := pl.purchase .Invisible
      let g1 : Game := { g with players := g.players.set pid pr.2 }
      match pr.1 with
      | .error e => some (.error e, g1)
      | .ok _ =>
        (g1.intel_reveal pid .Invisible).map (fun g2 =>
          (.ok (), { g2 with players := (g2.players.set pid
            { g2.players.getD pid default with invisible := true }) })))

/-- `Game::reveal_action`: purchase first (cost charged regardless of
outcome), then either probe one target (Reveal if not invisible, else
RevealFailure) or sweep every other player (Reveal when co-located and not
invisible, else RevealFailure), and finally emit the intel-spend notice. -/
def Game.reveal_action (g : Game) (pid : Nat)
    (reveal : Option Nat) : Option (GameResult × Game) :=
  (g.players.get? pid).bind (fun pl =>
    let pr := pl.purchase .Reveal
    let g1 : Game := { g with players := g.players.set pid pr.2 }
    match pr.1 with
    | .error e => some (.error e, g1)
    | .ok _ =>
      match reveal with
      | some t =>
        (g1.players.get? t).bind (fun pt =>
          let g2 :=
            if !pt.invisible then
              g1.note pid (Observation.Reveal t pt.location)
            else g1.note pid (Observation.RevealFailure t)
          (g2.intel_reveal pid .Reveal).map (fun g3 => (.ok (), g3)))
      | none =>
        let reveals := g1.players.filterMap (fun q =>
          if q.id ≠ pid then
            if !q.invisible
                && q.location == (g1.players.getD pid default).location then
              some (Observation.Reveal q.id q.location)
            else some (Observation.RevealFailure q.id)
          else none)
        let g2 := reveals.foldl (fun g o => g.note pid o) g1
        (g2.intel_reveal pid .Reveal).map (fun g3 => (.ok (), g3)))

/-- `Game::prepare`: just the (free) intel-spend notice. -/
def Game.prepare (g : Game) (pid : Nat) : Option Game :=
  g.intel_reveal pid .Prepare

/-- `Game::do_action`: dispatch to the per-action rule function.  The
returned pair is the Rust `GameResult` together with the post-state (which
in Rust lives behind `&mut self`). -/
def Game.do_action (g : Game) (pid : Nat) (action : Action) :
    Option (GameResult × Game) :=
  match action with
  | .Strike => (g.strike pid).map (fun g1 => (.ok (), g1))
  | .Wait => some (.ok (), g.wait pid)
  | .Capture => (g.capture pid).map (fun g1 => (.ok (), g1))
  | .HideSignals => g.hide_signals pid
  | .Invisible => g.invisible_action pid
  | .Prepare => (g.prepare pid).map (fun g1 => (.ok (), g1))
  | .Move dest =>
    (g.try_move pid dest).map (fun mg =>
      (if mg.1 then .ok () else .error .WouldNoop, mg.2))
  | .Reveal target => g.reveal_action pid target

/-! ## Concrete states used as witnesses and counterexamples

`wDemo` mirrors `demo_game()` of the Rust test suite: locations Alpha
(income 2) and Bravo (income 1) joined by one edge. -/

/-- The two-city demo map of the Rust tests. -/
def wDemo : Game :=
  let a := Game.new.add_location "Alpha" 2
  let b := a.2.add_location "Bravo" 1
  (b.2.connect_locations a.1 b.1).getD b.2

/-- Demo map with one player at Alpha holding 5 intel. -/
def wRich : Game :=
  let sp := wDemo.spawn_player 0
  { sp.2 with players :=
      (sp.2.players.set 0 { sp.2.players.getD 0 default with intel := 5 }) }

/-- Demo map with a striker at Alpha and a second player at Bravo who is
already dead (and has `visible_violence = false`). -/
def wDeadFar : Game :=
  let s := wDemo.spawn_player 0
  let o := s.2.spawn_player 1
  { o.2 with players :=
      (o.2.players.set 1 { o.2.players.getD 1 default with alive := false }) }

/-- Demo map with two players: an invisible spy at Alpha and an observer at
Bravo, both holding 10 intel (the Rust `reveal_respects_invisibility`
scenario). -/
def wSpy : Game :=
  let s := wDemo.spawn_player 0
  let o := s.2.spawn_player 1
  let g := o.2
  { g with players :=
      ((g.players.set 0
        { g.players.getD 0 default with invisible := true, intel := 10 }).set 1
        { g.players.getD 1 default with intel := 10 }) }

/-- Demo map with a single player at Alpha controlling Alpha, with a
pending powerup of 3 on Alpha (the Rust `start_turn_grants_income`
scenario). -/
def wIncome : Game :=
  let sp := wDemo.spawn_player 0
  let g := sp.2
  { g with cities := { g.cities with nodes :=
      (g.cities.nodes.set 0 { g.cities.nodes.getD 0 default with
        control := some sp.1, pending_powerup := some 3 }) } }

/-- The per-player transformation applied by `start_turn`'s roster loop:
the pure projection of `startTurnStep` onto the player record. -/
def startTurnPlayer (pid curIdx income : Nat) (p : Player) : Player :=
  let p1 := if p.id ≠ pid ∧ ¬p.invisible ∧ curIdx = p.location
    then { p with concealed := false } else p
  if p1.id = pid then
    { p1 with intel := p1.intel + income, invisible := false }
  else p1

/-- Turn income from controlled locations, phrased the way the spec states
it: the sum over every location of its base income when controlled by
`pid`. -/
def controlledIncome (g : Game) (pid : Nat) : Nat :=
  (g.cities.nodes.map
    (fun c => if c.control = some pid then c.base_income else 0)).sum

/-- The same game with player `pid`'s `alive` flag forced to `b`. -/
def setAlive (g : Game) (pid : Nat) (b : Bool) : Game :=
  { g with players :=
      (g.players.set pid { g.players.getD pid default with alive := b }) }

/-! ## Generic helper lemmas -/

theorem list_get?_getD {α} (l : List α) (n : Nat) (d : α)
    (h : n < l.length) : l.get? n = some (l.getD n d) := by
  simp [List.getD_eq_getD_get?, List.get?_eq_getElem?,
    List.getElem?_eq_getElem h]

theorem list_getD_set_self {α} (l : List α) (n : Nat) (a d : α)
    (h : n < l.length) : (l.set n a).getD n d = a := by
  simp [List.getD_eq_getD_get?, List.get?_eq_getElem?,
    List.getElem?_set_eq_of_lt a h]

theorem list_getD_set_ne {α} (l : List α) {n m : Nat} (a d : α)
    (h : m ≠ n) : (l.set n a).getD m d = l.getD m d := by
  simp [List.getD_eq_getD_get?, List.get?_eq_getElem?,
    List.getElem?_set_ne (Ne.symm h)]

theorem list_get?_set_self {α} (l : List α) (n : Nat) (a : α)
    (h : n < l.length) : (l.set n a).get? n = some a := by
  simp [List.get?_eq_getElem?, List.getElem?_set_eq_of_lt a h]

theorem list_get?_lt {α} {l : List α} {n : Nat} {a : α}
    (h : l.get? n = some a) : n < l.length :=
  List.get?_eq_some.mp h |>.choose

theorem list_getD_of_get? {α} {l : List α} {n : Nat} {a : α} (d : α)
    (h : l.get? n = some a) : l.getD n d = a := by
  rw [List.getD_eq_getD_get?, h]; rfl

theorem game_note_players (g : Game) (pid : Nat) (o : Observation) :
    (g.note pid o).players = g.players := rfl

theorem game_note_cities (g : Game) (pid : Nat) (o : Observation) :
    (g.note pid o).cities = g.cities := rfl

theorem game_note_priv_self (g : Game) (pid : Nat) (o : Observation) :
    (g.note pid o).event.private_observations pid
      = g.event.private_observations pid ++ [o] := by
  simp [Game.note, Event.note]

theorem game_note_priv_ne (g : Game) {q pid : Nat} (o : Observation)
    (h : q ≠ pid) : (g.note pid o).event.private_observations q
      = g.event.private_observations q := by
  simp [Game.note, Event.note, h]

theorem game_note_pub (g : Game) (pid : Nat) (o : Observation) :
    (g.note pid o).event.public_observations
      = g.event.public_observations := rfl

theorem game_broadcast_players (g : Game) (o : Observation) :
    (g.broadcast o).players = g.players := rfl

theorem game_broadcast_priv (g : Game) (q : Nat) (o : Observation) :
    (g.broadcast o).event.private_observations q
      = g.event.private_observations q := rfl

theorem game_broadcast_pub (g : Game) (o : Observation) :
    (g.broadcast o).event.public_observations
      = g.event.public_observations ++ [o] := rfl

theorem foldl_note_players (obs : List Observation) (g : Game)
    (pid : Nat) :
    (obs.foldl (fun g o => g.note pid o) g).players = g.players := by
  induction obs generalizing g with
  | nil => rfl
  | cons o t ih => simpa using ih (g.note pid o)

theorem foldl_note_cities (obs : List Observation) (g : Game)
    (pid : Nat) :
    (obs.foldl (fun g o => g.note pid o) g).cities = g.cities := by
  induction obs generalizing g with
  | nil => rfl
  | cons o t ih => simpa using ih (g.note pid o)

/-! ## C8 — `start_turn` leaves the board untouched -/

/-- C8: `start_turn(pid)` does not clear or modify the pending bonus, and
indeed leaves every field of every `Location` unchanged: the whole city
graph of the post-state equals the pre-state's. -/
theorem start_turn_board_frame (g : Game) (pid : Nat)
    (hpid : pid < g.players.length)
    (hloc : (g.players.getD pid default).location < g.cities.nodes.length) :
    ∃ g', g.start_turn pid = some g' ∧ g'.cities = g.cities ∧
      ∀ i, (g'.cities.nodes.getD i default).pending_powerup
        = (g.cities.nodes.getD i default).pending_powerup := by
  unfold Game.start_turn
  rw [list_get?_getD _ _ default hpid, Option.some_bind,
    list_get?_getD _ _ default hloc, Option.map_some']
  exact ⟨_, rfl, rfl, fun i => rfl⟩

/-- Witness for C8 on the `start_turn_grants_income` scenario. -/
theorem start_turn_board_frame_witness :
    ∃ g', wIncome.start_turn 0 = some g' ∧ g'.cities = wIncome.cities ∧
      ∀ i, (g'.cities.nodes.getD i default).pending_powerup
        = (wIncome.cities.nodes.getD i default).pending_powerup :=
  start_turn_board_frame wIncome 0 (by decide) (by decide)

/-! ## C2 — the HideSignals purchase notice reveals its own kind

The claimed resolution order (purchase, set flag, emit notice) is wrong:
`Game::hide_signals` emits the intel-spend notice *before* setting
`hidden_signals`, so the notice for this very purchase carries
`kind = Some(HideSignals)`, not `None`. -/

/-- C2 counterexample: on the demo map with a funded player, a successful
`HideSignals` purchase broadcasts `Intel { by: Some(0), kind:
Some(HideSignals) }` — the purchase kind is *not* withheld, refuting the
claimed `kind=None`. -/
theorem hide_signals_notice_counterexample :
    (wRich.do_action 0 .HideSignals).map
        (fun rg => rg.2.event.public_observations)
      = some [Observation.Intel (some 0) (some .HideSignals)] ∧
    (some IntelKind.HideSignals ≠ (none : Option IntelKind)) :=
  ⟨rfl, by decide⟩

/-- C2 (amended): when `do_action(pid, HideSignals)` succeeds, the resolver
performs the purchase, then emits the intel-spend notice, and only then
sets the `hidden_signals` flag; consequently the notice emitted for this
very purchase has its kind revealed (`kind = Some(HideSignals)`), since
`hidden_signals` is still clear when the notice is constructed. -/
theorem hide_signals_run_ok (g : Game) (pid : Nat) (pl : Player)
    (hpl : g.players.get? pid = some pl)
    (hflag : pl.hidden_signals = false)
    (hc : ¬ (IntelKind.HideSignals.cost > pl.intel)) :
    g.hide_signals pid = some (.ok (),
      { cities := g.cities,
        players := (g.players.set pid
          { pl with intel := pl.intel - 2, hidden_signals := true }),
        event := g.event.broadcast
          (Observation.Intel (some pid) (some .HideSignals)) }) := by
  have hlen : pid < g.players.length := list_get?_lt hpl
  unfold Game.hide_signals
  rw [hpl, Option.some_bind, hflag]
  simp only [Bool.false_eq_true, if_false, Player.purchase, if_neg hc]
  unfold Game.intel_reveal
  rw [list_get?_set_self _ _ _ hlen]
  simp only [Option.map_some', hflag, Bool.false_eq_true, if_false,
    Game.broadcast, Event.broadcast]
  rw [list_getD_set_self _ _ _ _ hlen]
  simp [List.set_set, IntelKind.cost]

theorem hide_signals_notice_reveals_kind (g : Game) (pid : Nat)
    (hpid : pid < g.players.length)
    (hflag : (g.players.getD pid default).hidden_signals = false)
    (hintel : 2 ≤ (g.players.getD pid default).intel) :
    ∃ g', g.do_action pid .HideSignals = some (.ok (), g') ∧
      g'.event.public_observations = g.event.public_observations
        ++ [Observation.Intel (some pid) (some .HideSignals)] ∧
      (g'.players.getD pid default).hidden_signals = true ∧
      (g'.players.getD pid default).intel + 2
        = (g.players.getD pid default).intel := by
  have hrun := hide_signals_run_ok g pid (g.players.getD pid default)
    (list_get?_getD _ _ default hpid) hflag
    (by simp only [IntelKind.cost]; omega)
  refine ⟨_, hrun, rfl, ?_, ?_⟩
  · show ((g.players.set pid _).getD pid default).hidden_signals = true
    rw [list_getD_set_self _ _ _ _ hpid]
  · show ((g.players.set pid _).getD pid default).intel + 2 = _
    rw [list_getD_set_self _ _ _ _ hpid]
    show (g.players.getD pid default).intel - 2 + 2
      = (g.players.getD pid default).intel
    omega

/-- Witness for C2's amended theorem on the funded demo player. -/
theorem hide_signals_notice_reveals_kind_witness :
    ∃ g', wRich.do_action 0 .HideSignals = some (.ok (), g') ∧
      g'.event.public_observations = wRich.event.public_observations
        ++ [Observation.Intel (some 0) (some .HideSignals)] ∧
      (g'.players.getD 0 default).hidden_signals = true ∧
      (g'.players.getD 0 default).intel + 2
        = (wRich.players.getD 0 default).intel :=
  hide_signals_notice_reveals_kind wRich 0 (by decide) (by decide) (by decide)

/-! ## C6 — Move succeeds exactly when an edge exists -/

theorem try_move_no_edge (g : Game) (pid dest : Nat) (pl : Player)
    (hpl : g.players.get? pid = some pl)
    (hedge : (g.cities.find_edge pl.location dest).isNone = true) :
    g.try_move pid dest = some (false, g) := by
  unfold Game.try_move
  rw [hpl, Option.map_some', if_pos hedge]

theorem try_move_with_edge (g : Game) (pid dest : Nat) (pl : Player)
    (hpl : g.players.get? pid = some pl)
    (hedge : (g.cities.find_edge pl.location dest).isNone = false) :
    ∃ g', g.try_move pid dest = some (true, g') ∧
      g'.players = g.players.set pid { pl with location := dest } ∧
      g'.cities = g.cities := by
  unfold Game.try_move
  rw [hpl, Option.map_some']
  simp only [hedge, Bool.false_eq_true, if_false]
  exact ⟨_, rfl, foldl_note_players _ _ _, foldl_note_cities _ _ _⟩

/-- C6: `do_action(pid, Move(dest))` succeeds if and only if an edge exists
between pid's current location and `dest`; on failure it returns
`WouldNoop` and the whole state (in particular pid's location) is
unchanged; on success pid's location becomes `dest`. -/
theorem move_requires_edge (g : Game) (pid dest : Nat)
    (hpid : pid < g.players.length) :
    (g.cities.find_edge (g.players.getD pid default).location dest = none →
      g.do_action pid (.Move dest) = some (.error .WouldNoop, g)) ∧
    (g.cities.find_edge (g.players.getD pid default).location dest ≠ none →
      ∃ g', g.do_action pid (.Move dest) = some (.ok (), g') ∧
        (g'.players.getD pid default).location = dest) := by
  have hpl := list_get?_getD g.players pid default hpid
  constructor
  · intro hnone
    have := try_move_no_edge g pid dest _ hpl
      (by rw [hnone]; rfl)
    show (g.try_move pid dest).map _ = _
    rw [this, Option.map_some']
    rfl
  · intro hsome
    obtain ⟨g', hrun, hps, _⟩ := try_move_with_edge g pid dest _ hpl
      (by rcases h : g.cities.find_edge (g.players.getD pid default).location
            dest with _ | e
          · exact absurd h hsome
          · rfl)
    refine ⟨g', ?_, ?_⟩
    · show (g.try_move pid dest).map _ = _
      rw [hrun, Option.map_some']
      rfl
    · rw [hps, list_getD_set_self _ _ _ _ hpid]

/-- Witness for C6: a player at Alpha can move to Bravo (edge present) but
not to itself (no self edge). -/
theorem move_requires_edge_witness :
    (let g := (wDemo.spawn_player 0).2
     (g.cities.find_edge (g.players.getD 0 default).location 1 ≠ none →
      ∃ g', g.do_action 0 (.Move 1) = some (.ok (), g') ∧
        (g'.players.getD 0 default).location = 1) ∧
     g.cities.find_edge (g.players.getD 0 default).location 1 ≠ none) := by
  refine ⟨(move_requires_edge (wDemo.spawn_player 0).2 0 1 (by decide)).2,
    by decide⟩

/-! ## C9 — the error `NotYourTurn` is never produced -/

theorem purchase_fst_cases (p : Player) (k : IntelKind) :
    (p.purchase k).1 = .ok ()
      ∨ (p.purchase k).1 = .error .NotEnoughIntel := by
  unfold Player.purchase
  split
  · right; rfl
  · left; rfl

theorem hide_signals_result (g : Game) (pid : Nat) (r : GameResult)
    (g' : Game) (h : g.hide_signals pid = some (r, g')) :
    r = .ok () ∨ r = .error .WouldNoop ∨ r = .error .NotEnoughIntel := by
  unfold Game.hide_signals at h
  cases hpl : g.players.get? pid with
  | none => rw [hpl] at h; exact absurd h (by simp)
  | some pl =>
    rw [hpl, Option.some_bind] at h
    by_cases hf : pl.hidden_signals = true
    · rw [if_pos hf] at h; cases h; right; left; rfl
    · rw [if_neg hf] at h
      rcases purchase_fst_cases pl .HideSignals with hc | hc <;>
        simp only [hc] at h
      · obtain ⟨g2, -, hfg⟩ := Option.map_eq_some'.mp h
        cases hfg; left; rfl
      · cases h; right; right; rfl

theorem invisible_action_result (g : Game) (pid : Nat) (r : GameResult)
    (g' : Game) (h : g.invisible_action pid = some (r, g')) :
    r = .ok () ∨ r = .error .WouldNoop ∨ r = .error .NotEnoughIntel := by
  unfold Game.invisible_action at h
  cases hpl : g.players.get? pid with
  | none => rw [hpl] at h; exact absurd h (by simp)
  | some pl =>
    rw [hpl, Option.some_bind] at h
    by_cases hf : pl.invisible = true
    · rw [if_pos hf] at h; cases h; right; left; rfl
    · rw [if_neg hf] at h
      rcases purchase_fst_cases pl .Invisible with hc | hc <;>
        simp only [hc] at h
      · obtain ⟨g2, -, hfg⟩ := Option.map_eq_some'.mp h
        cases hfg; left; rfl
      · cases h; right; right; rfl

theorem reveal_action_result (g : Game) (pid : Nat) (t : Option Nat)
    (r : GameResult) (g' : Game) (h : g.reveal_action pid t = some (r, g')) :
    r = .ok () ∨ r = .error .WouldNoop ∨ r = .error .NotEnoughIntel := by
  unfold Game.reveal_action at h
  cases hpl : g.players.get? pid with
  | none => rw [hpl] at h; exact absurd h (by simp)
  | some pl =>
    rw [hpl, Option.some_bind] at h
    rcases purchase_fst_cases pl .Reveal with hc | hc <;>
      simp only [hc] at h
    · cases t with
      | some tt =>
        obtain ⟨pt, -, h2⟩ := Option.bind_eq_some.mp h
        obtain ⟨g3, -, hfg⟩ := Option.map_eq_some'.mp h2
        cases hfg; left; rfl
      | none =>
        obtain ⟨g3, -, hfg⟩ := Option.map_eq_some'.mp h
        cases hfg; left; rfl
    · cases h; right; right; rfl

/-- C9: no code path of `do_action` ever produces the reserved error
`NotYourTurn` (and `start_turn`, returning no `GameResult` at all, cannot
raise it either). -/
theorem no_NotYourTurn (g : Game) (pid : Nat) (a : Action)
    (r : GameResult) (g' : Game) (h : g.do_action pid a = some (r, g')) :
    r ≠ .error .NotYourTurn := by
  cases a with
  | Strike =>
    cases hs : g.strike pid with
    | none => rw [Game.do_action, hs] at h; exact absurd h (by simp)
    | some g1 =>
      rw [Game.do_action, hs, Option.map_some'] at h; cases h; simp
  | Wait => rw [Game.do_action] at h; cases h; simp
  | Capture =>
    cases hs : g.capture pid with
    | none => rw [Game.do_action, hs] at h; exact absurd h (by simp)
    | some g1 =>
      rw [Game.do_action, hs, Option.map_some'] at h; cases h; simp
  | Prepare =>
    cases hs : g.prepare pid with
    | none => rw [Game.do_action, hs] at h; exact absurd h (by simp)
    | some g1 =>
      rw [Game.do_action, hs, Option.map_some'] at h; cases h; simp
  | HideSignals =>
    rcases hide_signals_result g pid r g' h with hr | hr | hr <;>
      rw [hr] <;> simp
  | Invisible =>
    rcases invisible_action_result g pid r g' h with hr | hr | hr <;>
      rw [hr] <;> simp
  | Move dest =>
    cases hs : g.try_move pid dest with
    | none => rw [Game.do_action, hs] at h; exact absurd h (by simp)
    | some mg =>
      rw [Game.do_action, hs, Option.map_some'] at h; cases h
      cases mg.1 <;> simp
  | Reveal t =>
    rcases reveal_action_result g pid t r g' h with hr | hr | hr <;>
      rw [hr] <;> simp

/-- Witness for C9 at a concrete call: the demo player waits. -/
theorem no_NotYourTurn_witness :
    (Except.ok () : GameResult) ≠ .error .NotYourTurn :=
  no_NotYourTurn (wDemo.spawn_player 0).2 0 .Wait (.ok ())
    ((wDemo.spawn_player 0).2.wait 0) rfl


/-! ## C4 — purchases never leave a partial deduction -/

theorem purchase_ok_intel (p : Player) (k : IntelKind)
    (h : (p.purchase k).1 = .ok ()) :
    (p.purchase k).2.intel + k.cost = p.intel := by
  by_cases hc : k.cost > p.intel
  · unfold Player.purchase at h; rw [if_pos hc] at h
    exact absurd h (by simp)
  · unfold Player.purchase; rw [if_neg hc]
    show p.intel - k.cost + k.cost = p.intel
    omega

theorem purchase_err_unchanged (p : Player) (k : IntelKind) (e : GameError)
    (h : (p.purchase k).1 = .error e) : (p.purchase k).2 = p := by
  by_cases hc : k.cost > p.intel
  · unfold Player.purchase; rw [if_pos hc]
  · unfold Player.purchase at h; rw [if_neg hc] at h
    exact absurd h (by simp)

theorem hide_signals_err_intel (g : Game) (pid : Nat) (e : GameError)
    (g' : Game) (h : g.hide_signals pid = some (.error e, g')) :
    (g'.players.getD pid default).intel
      = (g.players.getD pid default).intel := by
  unfold Game.hide_signals at h
  cases hpl : g.players.get? pid with
  | none => rw [hpl] at h; exact absurd h (by simp)
  | some pl =>
    have hlen : pid < g.players.length := list_get?_lt hpl
    rw [hpl, Option.some_bind] at h
    by_cases hf : pl.hidden_signals = true
    · rw [if_pos hf] at h; cases h; rfl
    · rw [if_neg hf] at h
      rcases purchase_fst_cases pl .HideSignals with hc | hc <;>
        simp only [hc] at h
      · obtain ⟨g2, -, hfg⟩ := Option.map_eq_some'.mp h
        have := congrArg Prod.fst hfg; simp at this
      · cases h
        rw [list_getD_set_self _ _ _ _ hlen,
          purchase_err_unchanged pl .HideSignals .NotEnoughIntel hc,
          list_getD_of_get? default hpl]

theorem invisible_action_err_intel (g : Game) (pid : Nat) (e : GameError)
    (g' : Game) (h : g.invisible_action pid = some (.error e, g')) :
    (g'.players.getD pid default).intel
      = (g.players.getD pid default).intel := by
  unfold Game.invisible_action at h
  cases hpl : g.players.get? pid with
  | none => rw [hpl] at h; exact absurd h (by simp)
  | some pl =>
    have hlen : pid < g.players.length := list_get?_lt hpl
    rw [hpl, Option.some_bind] at h
    by_cases hf : pl.invisible = true
    · rw [if_pos hf] at h; cases h; rfl
    · rw [if_neg hf] at h
      rcases purchase_fst_cases pl .Invisible with hc | hc <;>
        simp only [hc] at h
      · obtain ⟨g2, -, hfg⟩ := Option.map_eq_some'.mp h
        have := congrArg Prod.fst hfg; simp at this
      · cases h
        rw [list_getD_set_self _ _ _ _ hlen,
          purchase_err_unchanged pl .Invisible .NotEnoughIntel hc,
          list_getD_of_get? default hpl]

theorem reveal_action_err_intel (g : Game) (pid : Nat) (t : Option Nat)
    (e : GameError) (g' : Game)
    (h : g.reveal_action pid t = some (.error e, g')) :
    (g'.players.getD pid default).intel
      = (g.players.getD pid default).intel := by
  unfold Game.reveal_action at h
  cases hpl : g.players.get? pid with
  | none => rw [hpl] at h; exact absurd h (by simp)
  | some pl =>
    have hlen : pid < g.players.length := list_get?_lt hpl
    rw [hpl, Option.some_bind] at h
    rcases purchase_fst_cases pl .Reveal with hc | hc <;>
      simp only [hc] at h
    · cases t with
      | some tt =>
        obtain ⟨pt, -, h2⟩ := Option.bind_eq_some.mp h
        obtain ⟨g3, -, hfg⟩ := Option.map_eq_some'.mp h2
        have := congrArg Prod.fst hfg; simp at this
      | none =>
        obtain ⟨g3, -, hfg⟩ := Option.map_eq_some'.mp h
        have := congrArg Prod.fst hfg; simp at this
    · cases h
      rw [list_getD_set_self _ _ _ _ hlen,
        purchase_err_unchanged pl .Reveal .NotEnoughIntel hc,
        list_getD_of_get? default hpl]

/-- C4: `Player::purchase` either succeeds deducting exactly the cost
(`intel\' + cost = intel`, so the `Nat`-modelled balance never goes
negative and saturation never truncates), or fails leaving the player
record — in particular the balance — unchanged; and each purchase-gated
action (`HideSignals`, `Invisible`, `Reveal`) leaves the acting player's
intel unchanged whenever `do_action` returns an error. -/
theorem purchase_no_partial_deduction (g : Game) (pid : Nat) (p : Player)
    (k : IntelKind) (a : Action) (hpid : pid < g.players.length)
    (ha : a = .HideSignals ∨ a = .Invisible ∨ ∃ t, a = .Reveal t) :
    ((p.purchase k).1 = .ok () → (p.purchase k).2.intel + k.cost = p.intel)
    ∧ (∀ e, (p.purchase k).1 = .error e → (p.purchase k).2 = p)
    ∧ (∀ e g', g.do_action pid a = some (.error e, g') →
        (g'.players.getD pid default).intel
          = (g.players.getD pid default).intel) := by
  refine ⟨purchase_ok_intel p k, fun e => purchase_err_unchanged p k e,
    fun e g' h => ?_⟩
  rcases ha with rfl | rfl | ⟨t, rfl⟩
  · exact hide_signals_err_intel g pid e g' h
  · exact invisible_action_err_intel g pid e g' h
  · exact reveal_action_err_intel g pid t e g' h

/-- Witness for C4: an unfunded freshly spawned player attempting
`HideSignals` is refused and keeps its (zero) intel balance. -/
theorem purchase_no_partial_deduction_witness :
    (((wDemo.spawn_player 0).2.do_action 0 Action.HideSignals).map
      (fun rg => (rg.2.players.getD 0 default).intel))
      = some ((wDemo.spawn_player 0).2.players.getD 0 default).intel := by
  have h := (purchase_no_partial_deduction (wDemo.spawn_player 0).2 0
      ((wDemo.spawn_player 0).2.players.getD 0 default) IntelKind.HideSignals
      Action.HideSignals (by decide) (Or.inl rfl)).2.2
  cases hrun : (wDemo.spawn_player 0).2.do_action 0 Action.HideSignals with
  | none =>
    have hs : ((wDemo.spawn_player 0).2.do_action 0
        Action.HideSignals).isSome = true := rfl
    rw [hrun] at hs
    cases hs
  | some rg =>
    have hr : ((wDemo.spawn_player 0).2.do_action 0 Action.HideSignals).map
        Prod.fst = some (Except.error GameError.NotEnoughIntel) := rfl
    rw [hrun, Option.map_some'] at hr
    have hfst : rg.1 = Except.error GameError.NotEnoughIntel :=
      Option.some.inj hr
    have hrun2 : (wDemo.spawn_player 0).2.do_action 0 Action.HideSignals
        = some (Except.error GameError.NotEnoughIntel, rg.2) := by
      rw [hrun, ← hfst]
    rw [Option.map_some']
    exact congrArg some (h GameError.NotEnoughIntel rg.2 hrun2)

/-! ## C5 — targeted Reveal respects invisibility -/

theorem reveal_target_run (g : Game) (pid t : Nat) (pl pt : Player)
    (hpl : g.players.get? pid = some pl)
    (hpt : (g.players.set pid { pl with intel := pl.intel - 1 }).get? t
      = some pt)
    (hcost : ¬ (IntelKind.Reveal.cost > pl.intel)) :
    g.reveal_action pid (some t) = some (.ok (),
      ((Game.mk g.cities (g.players.set pid
          { pl with intel := pl.intel - 1 }) g.event).note pid
        (if pt.invisible then Observation.RevealFailure t
         else Observation.Reveal t pt.location)).broadcast
        (Observation.Intel (some pid)
          (if pl.hidden_signals then none else some .Reveal))) := by
  have hlen : pid < g.players.length := list_get?_lt hpl
  have hcost1 : ¬ ((1 : Nat) > pl.intel) := by
    simpa [IntelKind.cost] using hcost
  unfold Game.reveal_action
  rw [hpl, Option.some_bind]
  simp only [Player.purchase, IntelKind.cost, if_neg hcost1]
  rw [hpt, Option.some_bind]
  unfold Game.intel_reveal
  by_cases hinv : pt.invisible = true <;>
    simp only [hinv, Bool.not_true, Bool.not_false, Bool.false_eq_true,
      if_false, if_true, game_note_players]
  · rw [list_get?_set_self _ _ _ hlen]
    simp [Game.broadcast]
  · rw [list_get?_set_self _ _ _ hlen]
    simp [Game.broadcast]

/-- C5: a caller with enough intel targeting an invisible player gets a
`RevealFailure` naming only the target (the variant carries no location);
targeting a visible player yields instead a `Reveal` with the target's
location.  Either way the action succeeds and exactly one private
observation is appended to the caller's queue. -/
theorem reveal_target_observation (g : Game) (pid t : Nat)
    (hpid : pid < g.players.length) (ht : t < g.players.length)
    (hintel : 1 ≤ (g.players.getD pid default).intel) :
    ∃ g', g.reveal_action pid (some t) = some (.ok (), g') ∧
      g'.event.private_observations pid
        = g.event.private_observations pid
          ++ [if (g.players.getD t default).invisible then
                Observation.RevealFailure t
              else
                Observation.Reveal t (g.players.getD t default).location] := by
  have hpl := list_get?_getD g.players pid default hpid
  have hcost : ¬ (IntelKind.Reveal.cost
      > (g.players.getD pid default).intel) := by
    simp only [IntelKind.cost]; omega
  by_cases htp : t = pid
  · subst htp
    have hpt : (g.players.set t { g.players.getD t default with
        intel := (g.players.getD t default).intel - 1 }).get? t
        = some { g.players.getD t default with
          intel := (g.players.getD t default).intel - 1 } :=
      list_get?_set_self _ _ _ hpid
    refine ⟨_, reveal_target_run g t t _ _ hpl hpt hcost, ?_⟩
    rw [game_broadcast_priv, game_note_priv_self]
  · have hpt : (g.players.set pid { g.players.getD pid default with
        intel := (g.players.getD pid default).intel - 1 }).get? t
        = some (g.players.getD t default) := by
      rw [List.get?_eq_getElem?, List.getElem?_set_ne (Ne.symm htp)]
      rw [← List.get?_eq_getElem?]
      exact list_get?_getD g.players t default ht
    refine ⟨_, reveal_target_run g pid t _ _ hpl hpt hcost, ?_⟩
    rw [game_broadcast_priv, game_note_priv_self]

/-- Witness for C5 on the Rust `reveal_respects_invisibility` scenario:
observer 1 probes the invisible spy 0. -/
theorem reveal_target_observation_witness :
    ∃ g', wSpy.reveal_action 1 (some 0) = some (.ok (), g') ∧
      g'.event.private_observations 1
        = wSpy.event.private_observations 1
          ++ [if (wSpy.players.getD 0 default).invisible then
                Observation.RevealFailure 0
              else
                Observation.Reveal 0 (wSpy.players.getD 0 default).location] :=
  reveal_target_observation wSpy 1 0 (by decide) (by decide) (by decide)

/-! ## C7 — `connect_locations` is idempotent and order-independent -/

theorem edgeMatches_comm (a b : Nat) : edgeMatches b a = edgeMatches a b :=
  funext fun e => Bool.or_comm _ _

theorem find_edge_swap (gr : UnGraphL) (a b : Nat) :
    gr.find_edge b a = gr.find_edge a b := by
  unfold UnGraphL.find_edge
  rw [edgeMatches_comm]

theorem edgeCount_swap (gr : UnGraphL) (a b : Nat) :
    gr.edgeCount b a = gr.edgeCount a b := by
  unfold UnGraphL.edgeCount
  rw [edgeMatches_comm]

theorem find_edge_none_iff (gr : UnGraphL) (a b : Nat) :
    gr.find_edge a b = none ↔ gr.edgeCount a b = 0 := by
  unfold UnGraphL.find_edge UnGraphL.edgeCount
  rw [List.find?_eq_none, List.length_eq_zero, List.filter_eq_nil_iff]

theorem edgeMatches_self (a b x y : Nat)
    (h : (x = a ∧ y = b) ∨ (x = b ∧ y = a)) :
    edgeMatches a b (x, y) = true := by
  rcases h with ⟨rfl, rfl⟩ | ⟨rfl, rfl⟩ <;> simp [edgeMatches]

theorem edgeCount_append_matching (gr : UnGraphL) (a b x y : Nat)
    (h : edgeMatches a b (x, y) = true) :
    UnGraphL.edgeCount { gr with edges := gr.edges ++ [(x, y)] } a b
      = gr.edgeCount a b + 1 := by
  unfold UnGraphL.edgeCount
  rw [List.filter_append, List.length_append]
  simp [h]

/-- C7: starting from a board with at most one edge joining the (valid)
handles `a` and `b`, two `connect_locations` calls, each with arguments
`(a,b)` or `(b,a)` in any combination, both succeed and leave exactly one
edge between `a` and `b`. -/
theorem connect_locations_idempotent (g : Game) (a b x1 y1 x2 y2 : Nat)
    (ha : a < g.cities.nodes.length) (hb : b < g.cities.nodes.length)
    (hcnt : g.cities.edgeCount a b ≤ 1)
    (h1 : (x1 = a ∧ y1 = b) ∨ (x1 = b ∧ y1 = a))
    (h2 : (x2 = a ∧ y2 = b) ∨ (x2 = b ∧ y2 = a)) :
    ∃ g1 g2, g.connect_locations x1 y1 = some g1 ∧
      g1.connect_locations x2 y2 = some g2 ∧
      g2.cities.edgeCount a b = 1 := by
  have hfe1 : g.cities.find_edge x1 y1 = g.cities.find_edge a b := by
    rcases h1 with ⟨rfl, rfl⟩ | ⟨rfl, rfl⟩
    · rfl
    · exact find_edge_swap g.cities _ _
  cases hfe : g.cities.find_edge a b with
  | some e =>
    have hcne : g.cities.edgeCount a b ≠ 0 := by
      intro h0
      rw [(find_edge_none_iff g.cities a b).mpr h0] at hfe
      cases hfe
    have hone : g.cities.edgeCount a b = 1 := by omega
    refine ⟨g, g, ?_, ?_, hone⟩
    · unfold Game.connect_locations
      rw [hfe1, hfe]
      rfl
    · have hfe2 : g.cities.find_edge x2 y2 = g.cities.find_edge a b := by
        rcases h2 with ⟨rfl, rfl⟩ | ⟨rfl, rfl⟩
        · rfl
        · exact find_edge_swap g.cities _ _
      unfold Game.connect_locations
      rw [hfe2, hfe]
      rfl
  | none =>
    have hc0 : g.cities.edgeCount a b = 0 :=
      (find_edge_none_iff g.cities a b).mp hfe
    have hx1 : x1 < g.cities.nodes.length := by
      rcases h1 with ⟨h, -⟩ | ⟨h, -⟩ <;> rw [h] <;> assumption
    have hy1 : y1 < g.cities.nodes.length := by
      rcases h1 with ⟨-, h⟩ | ⟨-, h⟩ <;> rw [h] <;> assumption
    have hcount1 : UnGraphL.edgeCount
        { g.cities with edges := g.cities.edges ++ [(x1, y1)] } a b = 1 := by
      rw [edgeCount_append_matching g.cities a b x1 y1
        (edgeMatches_self a b x1 y1 h1), hc0]
    refine ⟨{ g with cities :=
        { g.cities with edges := g.cities.edges ++ [(x1, y1)] } },
      { g with cities :=
        { g.cities with edges := g.cities.edges ++ [(x1, y1)] } },
      ?_, ?_, hcount1⟩
    · unfold Game.connect_locations UnGraphL.add_edge
      rw [hfe1, hfe]
      show Option.map _ (if _ ∧ _ then _ else _) = _
      rw [if_pos (And.intro hx1 hy1), Option.map_some']
    · have hnz : UnGraphL.find_edge
          { g.cities with edges := g.cities.edges ++ [(x1, y1)] } x2 y2
          ≠ none := by
        have hswap : UnGraphL.find_edge
            { g.cities with edges := g.cities.edges ++ [(x1, y1)] } x2 y2
            = UnGraphL.find_edge
              { g.cities with edges := g.cities.edges ++ [(x1, y1)] } a b := by
          rcases h2 with ⟨rfl, rfl⟩ | ⟨rfl, rfl⟩
          · rfl
          · exact find_edge_swap _ _ _
        rw [hswap]
        intro hn
        rw [(find_edge_none_iff _ a b).mp hn] at hcount1
        cases hcount1
      unfold Game.connect_locations
      cases hfx : UnGraphL.find_edge
          { g.cities with edges := g.cities.edges ++ [(x1, y1)] } x2 y2 with
      | none => exact absurd hfx hnz
      | some e2 => rfl

/-- Witness for C7 on the demo map: reconnecting Alpha and Bravo in both
argument orders keeps a single edge. -/
theorem connect_locations_idempotent_witness :
    ∃ g1 g2, wDemo.connect_locations 0 1 = some g1 ∧
      g1.connect_locations 1 0 = some g2 ∧
      g2.cities.edgeCount 0 1 = 1 :=
  connect_locations_idempotent wDemo 0 1 0 1 1 0 (by decide) (by decide)
    (by decide) (Or.inl ⟨rfl, rfl⟩) (Or.inr ⟨rfl, rfl⟩)

/-! ## C3 — `start_turn` income -/

theorem list_getD_map {α β} (l : List α) (n : Nat) (f : α → β) (d : α)
    (d' : β) (h : n < l.length) : (l.map f).getD n d' = f (l.getD n d) := by
  rw [List.getD_eq_getD_get?, List.get?_map, list_get?_getD l n d h]
  rfl

theorem startTurnStep_fst (pid c inc : Nat) (acc : List Player × Event)
    (p : Player) :
    (startTurnStep pid c inc acc p).1
      = acc.1 ++ [startTurnPlayer pid c inc p] := by
  by_cases hcond : p.id ≠ pid ∧ ¬p.invisible ∧ c = p.location
  · simp only [startTurnStep, startTurnPlayer, if_pos hcond]
  · simp only [startTurnStep, startTurnPlayer, if_neg hcond]

theorem startTurn_fold_fst (pid c inc : Nat) (xs : List Player)
    (init : List Player) (ev : Event) :
    (xs.foldl (startTurnStep pid c inc) (init, ev)).1
      = init ++ xs.map (startTurnPlayer pid c inc) := by
  induction xs generalizing init ev with
  | nil => simp
  | cons p t ih =>
    rw [List.foldl_cons]
    have hih := ih (startTurnStep pid c inc (init, ev) p).1
      (startTurnStep pid c inc (init, ev) p).2
    rw [List.map_cons]
    calc (t.foldl (startTurnStep pid c inc)
          (startTurnStep pid c inc (init, ev) p)).1
        = (startTurnStep pid c inc (init, ev) p).1
            ++ t.map (startTurnPlayer pid c inc) := hih
      _ = (init ++ [startTurnPlayer pid c inc p])
            ++ t.map (startTurnPlayer pid c inc) := by
          rw [startTurnStep_fst]
      _ = init ++ (startTurnPlayer pid c inc p
            :: t.map (startTurnPlayer pid c inc)) := by simp

theorem start_turn_run (g : Game) (pid : Nat) (pl : Player)
    (curCity : Location) (hpl : g.players.get? pid = some pl)
    (hcc : g.cities.nodes.get? pl.location = some curCity) :
    ∃ g', g.start_turn pid = some g' ∧
      g'.players = g.players.map (startTurnPlayer pid curCity.index
        (((g.cities.nodes.filter (fun c => c.control == some pid)).map
          (fun c => c.base_income)).sum + curCity.pending_powerup.getD 0)) := by
  unfold Game.start_turn
  rw [hpl, Option.some_bind, hcc, Option.map_some']
  refine ⟨_, rfl, ?_⟩
  show (g.players.foldl _ ([], g.event)).1 = _
  rw [startTurn_fold_fst]
  rfl

theorem sum_filter_controlled (l : List Location) (pid : Nat) :
    ((l.filter (fun c => c.control == some pid)).map
      (fun c => c.base_income)).sum
      = (l.map (fun c => if c.control = some pid then c.base_income
          else 0)).sum := by
  induction l with
  | nil => rfl
  | cons c t ih =>
    by_cases h : c.control = some pid <;>
      simp [List.filter_cons, h, ih]

theorem startTurnPlayer_self (pid c inc : Nat) (p : Player)
    (hid : p.id = pid) :
    startTurnPlayer pid c inc p
      = { p with intel := p.intel + inc, invisible := false } := by
  unfold startTurnPlayer
  have hcond : ¬ (p.id ≠ pid ∧ ¬p.invisible = true ∧ c = p.location) := by
    simp [hid]
  rw [if_neg hcond, if_pos hid]

theorem startTurnPlayer_other_intel (pid c inc : Nat) (p : Player)
    (hid : p.id ≠ pid) :
    (startTurnPlayer pid c inc p).intel = p.intel := by
  unfold startTurnPlayer
  by_cases hcond : p.id ≠ pid ∧ ¬p.invisible ∧ c = p.location
  · rw [if_pos hcond]
    rw [if_neg (show ({ p with concealed := false } : Player).id ≠ pid
      from hid)]
  · rw [if_neg hcond, if_neg hid]

/-- C3: `start_turn(pid)` increases pid's intel by exactly the sum of
`base_income` over the locations pid controls plus the pending bonus at
pid's current location (0 when absent), clears pid's `invisible` flag, and
leaves every other player's intel unchanged.  The roster is assumed
well-formed (`id` = index), as `spawn_player` guarantees. -/
theorem start_turn_income (g : Game) (pid : Nat)
    (hpid : pid < g.players.length)
    (hloc : (g.players.getD pid default).location < g.cities.nodes.length)
    (hwf : ∀ q, q < g.players.length → (g.players.getD q default).id = q) :
    ∃ g', g.start_turn pid = some g' ∧
      (g'.players.getD pid default).intel
        = (g.players.getD pid default).intel + (controlledIncome g pid
          + ((g.cities.nodes.getD (g.players.getD pid default).location
              default).pending_powerup.getD 0)) ∧
      (g'.players.getD pid default).invisible = false ∧
      (∀ q, q < g.players.length → q ≠ pid →
        (g'.players.getD q default).intel
          = (g.players.getD q default).intel) := by
  obtain ⟨g', hrun, hps⟩ := start_turn_run g pid (g.players.getD pid default)
    (g.cities.nodes.getD (g.players.getD pid default).location default)
    (list_get?_getD _ _ default hpid) (list_get?_getD _ _ default hloc)
  refine ⟨g', hrun, ?_, ?_, ?_⟩
  · rw [hps, list_getD_map _ _ _ default default hpid,
      startTurnPlayer_self _ _ _ _ (hwf pid hpid)]
    show (g.players.getD pid default).intel + _ = _
    rw [sum_filter_controlled]
    rfl
  · rw [hps, list_getD_map _ _ _ default default hpid,
      startTurnPlayer_self _ _ _ _ (hwf pid hpid)]
  · intro q hq hqpid
    rw [hps, list_getD_map _ _ _ default default hq,
      startTurnPlayer_other_intel]
    rw [hwf q hq]
    exact hqpid

/-- Witness for C3 on the `start_turn_grants_income` scenario (income
2 + 3 = 5). -/
theorem start_turn_income_witness :
    ∃ g', wIncome.start_turn 0 = some g' ∧
      (g'.players.getD 0 default).intel
        = (wIncome.players.getD 0 default).intel + (controlledIncome wIncome 0
          + ((wIncome.cities.nodes.getD
              (wIncome.players.getD 0 default).location
              default).pending_powerup.getD 0)) ∧
      (g'.players.getD 0 default).invisible = false ∧
      (∀ q, q < wIncome.players.length → q ≠ 0 →
        (g'.players.getD q default).intel
          = (wIncome.players.getD q default).intel) :=
  start_turn_income wIncome 0 (by decide) (by decide) (by decide)

/-! ## C1 — strike: deaths, Death observations, and location disclosure -/

theorem note_priv_grows (g : Game) (p : Nat) (o : Observation) (q : Nat) :
    g.event.private_observations q
      <+: (g.note p o).event.private_observations q := by
  by_cases hq : q = p
  · subst hq
    rw [game_note_priv_self]
    exact List.prefix_append _ _
  · rw [game_note_priv_ne _ _ hq]

theorem strikeStep_players_length (pid : Nat) (g : Game) (i : Nat) :
    (strikeStep pid g i).players.length = g.players.length := by
  by_cases hip : i ≠ pid
  · by_cases hco : (g.players.getD pid default).location
        = (g.players.getD i default).location
    · simp only [strikeStep, if_pos hip, if_pos hco]
      split <;> simp [Game.note, List.length_set]
    · simp only [strikeStep, if_pos hip, if_neg hco]
      split <;> simp [Game.note]
  · simp only [strikeStep, if_neg hip]

theorem strikeStep_getD_ne (pid : Nat) (g : Game) (i j : Nat) (hj : j ≠ i) :
    (strikeStep pid g i).players.getD j default
      = g.players.getD j default := by
  by_cases hip : i ≠ pid
  · by_cases hco : (g.players.getD pid default).location
        = (g.players.getD i default).location
    · simp only [strikeStep, if_pos hip, if_pos hco]
      split <;> simp [Game.note, List.getElem?_set_ne (Ne.symm hj)]
    · simp only [strikeStep, if_pos hip, if_neg hco]
      split <;> simp [Game.note]
  · simp only [strikeStep, if_neg hip]

theorem strikeStep_getD_pid (pid : Nat) (g : Game) (i : Nat) :
    (strikeStep pid g i).players.getD pid default
      = g.players.getD pid default := by
  by_cases hip : pid = i
  · subst hip
    simp only [strikeStep, if_neg (show ¬ (pid ≠ pid) by simp)]
  · exact strikeStep_getD_ne pid g i pid hip

theorem strikeStep_priv_ne (pid : Nat) (g : Game) (i j : Nat) (hj : j ≠ i)
    (hjp : j ≠ pid) :
    (strikeStep pid g i).event.private_observations j
      = g.event.private_observations j := by
  by_cases hip : i ≠ pid
  · by_cases hco : (g.players.getD pid default).location
        = (g.players.getD i default).location
    · simp only [strikeStep, if_pos hip, if_pos hco]
      split <;>
        · rw [game_note_priv_ne _ _ hj]
          rw [game_note_priv_ne _ _ hj, game_note_priv_ne _ _ hjp]
    · simp only [strikeStep, if_pos hip, if_neg hco]
      split <;> rw [game_note_priv_ne _ _ hj]
  · simp only [strikeStep, if_neg hip]

theorem strikeStep_priv_grows (pid : Nat) (g : Game) (i : Nat) (q : Nat) :
    g.event.private_observations q
      <+: (strikeStep pid g i).event.private_observations q := by
  by_cases hip : i ≠ pid
  · by_cases hco : (g.players.getD pid default).location
        = (g.players.getD i default).location
    · simp only [strikeStep, if_pos hip, if_pos hco]
      split <;>
        exact List.IsPrefix.trans (List.IsPrefix.trans
          (note_priv_grows _ _ _ q) (note_priv_grows _ _ _ q))
          (note_priv_grows _ _ _ q)
    · simp only [strikeStep, if_pos hip, if_neg hco]
      split <;> exact note_priv_grows _ _ _ q
  · simp only [strikeStep, if_neg hip]
    exact List.prefix_refl _

theorem strike_fold_length (pid : Nat) (L : List Nat) (g : Game) :
    (L.foldl (strikeStep pid) g).players.length = g.players.length := by
  induction L generalizing g with
  | nil => rfl
  | cons i t ih => rw [List.foldl_cons, ih, strikeStep_players_length]

theorem strike_fold_getD_pid (pid : Nat) (L : List Nat) (g : Game) :
    (L.foldl (strikeStep pid) g).players.getD pid default
      = g.players.getD pid default := by
  induction L generalizing g with
  | nil => rfl
  | cons i t ih => rw [List.foldl_cons, ih, strikeStep_getD_pid]

theorem strike_fold_getD_notin (pid j : Nat) (L : List Nat) (hL : j ∉ L)
    (g : Game) :
    (L.foldl (strikeStep pid) g).players.getD j default
      = g.players.getD j default := by
  induction L generalizing g with
  | nil => rfl
  | cons i t ih =>
    rw [List.foldl_cons, ih (fun h => hL (List.mem_cons.mpr (Or.inr h))),
      strikeStep_getD_ne pid g i j (fun h => hL (List.mem_cons.mpr (Or.inl h)))]

theorem strike_fold_priv_notin (pid j : Nat) (hjp : j ≠ pid) (L : List Nat)
    (hL : j ∉ L) (g : Game) :
    (L.foldl (strikeStep pid) g).event.private_observations j
      = g.event.private_observations j := by
  induction L generalizing g with
  | nil => rfl
  | cons i t ih =>
    rw [List.foldl_cons, ih (fun h => hL (List.mem_cons.mpr (Or.inr h))),
      strikeStep_priv_ne pid g i j
        (fun h => hL (List.mem_cons.mpr (Or.inl h))) hjp]

theorem strike_fold_priv_grows (pid q : Nat) (L : List Nat) (g : Game) :
    g.event.private_observations q
      <+: (L.foldl (strikeStep pid) g).event.private_observations q := by
  induction L generalizing g with
  | nil => exact List.prefix_refl _
  | cons i t ih =>
    exact List.IsPrefix.trans (strikeStep_priv_grows pid g i q)
      (ih (strikeStep pid g i))

theorem strikeStep_at (pid pl : Nat) (g : Game) (hne : pl ≠ pid)
    (hlen : pl < g.players.length) :
    ((strikeStep pid g pl).players.getD pl default
      = (if (g.players.getD pid default).location
            = (g.players.getD pl default).location
         then { g.players.getD pl default with alive := false }
         else g.players.getD pl default)) ∧
    ((strikeStep pid g pl).event.private_observations pl
      = g.event.private_observations pl
        ++ (if (g.players.getD pid default).location
              = (g.players.getD pl default).location
            then [Observation.Death pid pl] else [])
        ++ [Observation.Strike (some pid)
            (if ((g.players.getD pl default).visible_violence
                || !(if (g.players.getD pid default).location
                      = (g.players.getD pl default).location
                    then false
                    else (g.players.getD pl default).alive)) = true
             then some (g.players.getD pid default).location else none)]) ∧
    ((g.players.getD pid default).location
        = (g.players.getD pl default).location →
      Observation.Death pid pl
        ∈ (strikeStep pid g pl).event.private_observations pid) := by
  by_cases hco : (g.players.getD pid default).location
      = (g.players.getD pl default).location
  · refine ⟨?_, ?_, fun _ => ?_⟩
    · simp only [strikeStep, if_pos hne, if_pos hco]
      split <;>
        simp [Game.note, if_pos hco, List.getElem?_set_eq_of_lt _ hlen,
          Option.getD_some]
    · simp only [strikeStep, if_pos hne, if_pos hco]
      split
      next hcond =>
        rw [game_note_priv_self, game_note_priv_self, game_note_priv_ne _ _ hne]
        simp only [Game.note, Event.note, if_pos hco]
        have hb : ((g.players.getD pl default).visible_violence
            || !(false : Bool)) = true := by simp
        rw [if_pos hb]
        simp [Game.note, Event.note, List.getElem?_set_ne hne,
          List.append_assoc]
      next hcond =>
        exfalso
        apply hcond
        rw [game_note_players, game_note_players,
          list_getD_set_self _ _ _ _ hlen]
        simp
    · simp only [strikeStep, if_pos hne, if_pos hco]
      split <;>
        · rw [game_note_priv_ne _ _ (Ne.symm hne),
            game_note_priv_ne _ _ (Ne.symm hne), game_note_priv_self]
          simp
  · refine ⟨?_, ?_, fun hco' => absurd hco' hco⟩
    · simp only [strikeStep, if_pos hne, if_neg hco]
      split <;> simp [Game.note]
    · simp only [strikeStep, if_pos hne, if_neg hco]
      split <;>
        · rw [game_note_priv_self]
          simp

/-- C1 counterexample: on the demo map, player 1 is already dead (from a
previous turn), not co-located with the striker, and has
`visible_violence = false`; yet `strike(0)` sends it a Strike observation
carrying the striker's location.  The claim's "includes pid's location
exactly when pl's visible_violence flag is set or pl just died in this
strike" is therefore false: the code tests `!alive`, which also catches
players dead before the strike. -/
theorem strike_location_leak_counterexample :
    (wDeadFar.strike 0).map (fun g => g.event.private_observations 1)
      = some [Observation.Strike (some 0) (some 0)] ∧
    (wDeadFar.players.getD 1 default).visible_violence = false ∧
    (wDeadFar.players.getD 1 default).alive = false ∧
    (wDeadFar.players.getD 0 default).location
      ≠ (wDeadFar.players.getD 1 default).location :=
  ⟨rfl, rfl, rfl, by decide⟩

/-- C1 (amended): for every other player `pl`, `strike(pid)` kills `pl`
when co-located (noting a Death to both striker and victim), and sends `pl`
a private Strike observation whose location is included exactly when `pl`'s
`visible_violence` flag is set **or `pl` is not alive after the strike's
death pass** — which covers both players killed by this strike and players
that were already dead beforehand (the part of the original claim this
corrects). -/
theorem strike_observations (g : Game) (pid pl : Nat)
    (hpid : pid < g.players.length) (hpl : pl < g.players.length)
    (hne : pl ≠ pid) :
    ∃ g', g.strike pid = some g' ∧
      (g'.players.getD pl default
        = (if (g.players.getD pid default).location
              = (g.players.getD pl default).location
           then { g.players.getD pl default with alive := false }
           else g.players.getD pl default)) ∧
      (g'.event.private_observations pl
        = g.event.private_observations pl
          ++ (if (g.players.getD pid default).location
                = (g.players.getD pl default).location
              then [Observation.Death pid pl] else [])
          ++ [Observation.Strike (some pid)
              (if ((g.players.getD pl default).visible_violence
                  || !(if (g.players.getD pid default).location
                        = (g.players.getD pl default).location
                      then false
                      else (g.players.getD pl default).alive)) = true
               then some (g.players.getD pid default).location else none)]) ∧
      ((g.players.getD pid default).location
          = (g.players.getD pl default).location →
        Observation.Death pid pl ∈ g'.event.private_observations pid) := by
  have hdec : List.range g.players.length
      = List.range pl
        ++ pl :: (List.range (g.players.length - pl - 1)).map (pl + 1 + ·) := by
    have e1 : g.players.length = pl + (1 + (g.players.length - pl - 1)) := by
      omega
    rw [e1, List.range_add, List.range_add]
    simp [List.range_succ]
  have hnot1 : pl ∉ List.range pl := by simp [List.mem_range]
  have hnot2 : pl ∉ (List.range (g.players.length - pl - 1)).map
      (pl + 1 + ·) := by
    simp only [List.mem_map, List.mem_range]
    rintro ⟨x, -, hx⟩
    omega
  have hrun : g.strike pid
      = some ((List.range g.players.length).foldl (strikeStep pid) g) := by
    unfold Game.strike
    rw [if_pos hpid]
  rw [hdec, List.foldl_append, List.foldl_cons] at hrun
  have hA_len : ((List.range pl).foldl (strikeStep pid) g).players.length
      = g.players.length := strike_fold_length pid _ g
  have hA_pl : ((List.range pl).foldl (strikeStep pid) g).players.getD pl
      default = g.players.getD pl default :=
    strike_fold_getD_notin pid pl _ hnot1 g
  have hA_pid : ((List.range pl).foldl (strikeStep pid) g).players.getD pid
      default = g.players.getD pid default := strike_fold_getD_pid pid _ g
  have hA_priv : ((List.range pl).foldl
      (strikeStep pid) g).event.private_observations pl
      = g.event.private_observations pl :=
    strike_fold_priv_notin pid pl hne _ hnot1 g
  obtain ⟨hs1, hs2, hs3⟩ := strikeStep_at pid pl
    ((List.range pl).foldl (strikeStep pid) g) hne (hA_len ▸ hpl)
  have hB_pl : (((List.range (g.players.length - pl - 1)).map
      (pl + 1 + ·)).foldl (strikeStep pid)
      (strikeStep pid ((List.range pl).foldl (strikeStep pid) g)
        pl)).players.getD pl default
      = (strikeStep pid ((List.range pl).foldl (strikeStep pid) g)
          pl).players.getD pl default :=
    strike_fold_getD_notin pid pl _ hnot2 _
  have hB_priv : (((List.range (g.players.length - pl - 1)).map
      (pl + 1 + ·)).foldl (strikeStep pid)
      (strikeStep pid ((List.range pl).foldl (strikeStep pid) g)
        pl)).event.private_observations pl
      = (strikeStep pid ((List.range pl).foldl (strikeStep pid) g)
          pl).event.private_observations pl :=
    strike_fold_priv_notin pid pl hne _ hnot2 _
  have hB_prefix : (strikeStep pid ((List.range pl).foldl (strikeStep pid) g)
      pl).event.private_observations pid
      <+: (((List.range (g.players.length - pl - 1)).map
        (pl + 1 + ·)).foldl (strikeStep pid)
        (strikeStep pid ((List.range pl).foldl (strikeStep pid) g)
          pl)).event.private_observations pid :=
    strike_fold_priv_grows pid pid _ _
  refine ⟨_, hrun, ?_, ?_, ?_⟩
  · rw [hB_pl, hs1, hA_pid, hA_pl]
  · rw [hB_priv, hs2, hA_priv, hA_pid, hA_pl]
  · intro hco
    exact hB_prefix.subset (hs3 (by rw [hA_pid, hA_pl]; exact hco))

/-- Witness for C1's amended theorem: striker 0 at Alpha, player 1 dead at
Bravo. -/
theorem strike_observations_witness :
    ∃ g', wDeadFar.strike 0 = some g' ∧
      (g'.players.getD 1 default
        = (if (wDeadFar.players.getD 0 default).location
              = (wDeadFar.players.getD 1 default).location
           then { wDeadFar.players.getD 1 default with alive := false }
           else wDeadFar.players.getD 1 default)) ∧
      (g'.event.private_observations 1
        = wDeadFar.event.private_observations 1
          ++ (if (wDeadFar.players.getD 0 default).location
                = (wDeadFar.players.getD 1 default).location
              then [Observation.Death 0 1] else [])
          ++ [Observation.Strike (some 0)
              (if ((wDeadFar.players.getD 1 default).visible_violence
                  || !(if (wDeadFar.players.getD 0 default).location
                        = (wDeadFar.players.getD 1 default).location
                      then false
                      else (wDeadFar.players.getD 1 default).alive)) = true
               then some (wDeadFar.players.getD 0 default).location
               else none)]) ∧
      ((wDeadFar.players.getD 0 default).location
          = (wDeadFar.players.getD 1 default).location →
        Observation.Death 0 1 ∈ g'.event.private_observations 0) :=
  strike_observations wDeadFar 0 1 (by decide) (by decide) (by decide)

/-! ## C10 — `do_action` never inspects the acting player's `alive` flag -/

theorem setAlive_cities (g : Game) (pid : Nat) (b : Bool) :
    (setAlive g pid b).cities = g.cities := rfl

theorem setAlive_event (g : Game) (pid : Nat) (b : Bool) :
    (setAlive g pid b).event = g.event := rfl

theorem setAlive_length (g : Game) (pid : Nat) (b : Bool) :
    (setAlive g pid b).players.length = g.players.length := by
  simp [setAlive]

theorem setAlive_players (g : Game) (pid : Nat) (b : Bool) :
    (setAlive g pid b).players
      = g.players.set pid { g.players.getD pid default with alive := b } :=
  rfl

theorem setAlive_get?_pid (g : Game) (pid : Nat) (b : Bool)
    (hpid : pid < g.players.length) :
    (setAlive g pid b).players.get? pid
      = some { g.players.getD pid default with alive := b } :=
  list_get?_set_self _ _ _ hpid

theorem note_setAlive (g : Game) (q : Nat) (o : Observation) (pid : Nat)
    (b : Bool) : (setAlive g pid b).note q o = setAlive (g.note q o) pid b :=
  rfl

theorem broadcast_setAlive (g : Game) (o : Observation) (pid : Nat)
    (b : Bool) :
    (setAlive g pid b).broadcast o = setAlive (g.broadcast o) pid b := rfl

theorem foldl_note_setAlive (obs : List Observation) (g : Game)
    (q pid : Nat) (b : Bool) :
    obs.foldl (fun g o => g.note q o) (setAlive g pid b)
      = setAlive (obs.foldl (fun g o => g.note q o) g) pid b := by
  induction obs generalizing g with
  | nil => rfl
  | cons o t ih =>
    rw [List.foldl_cons, List.foldl_cons, note_setAlive, ih]

theorem wait_setAlive (g : Game) (pid : Nat) (b : Bool) :
    (setAlive g pid b).wait pid = setAlive (g.wait pid) pid b := rfl

theorem prepare_setAlive (g : Game) (pid : Nat) (b : Bool)
    (hpid : pid < g.players.length) :
    (setAlive g pid b).prepare pid
      = (g.prepare pid).map (fun x => setAlive x pid b) := by
  unfold Game.prepare Game.intel_reveal
  rw [show (setAlive g pid b).players = (g.players.set pid
      { g.players.getD pid default with alive := b }) from rfl,
    list_get?_set_self _ _ _ hpid, list_get?_getD _ _ default hpid,
    Option.map_some', Option.map_some', Option.map_some']
  rfl

theorem intel_reveal_setAlive (g : Game) (pid : Nat) (k : IntelKind)
    (b : Bool) (hpid : pid < g.players.length) :
    (setAlive g pid b).intel_reveal pid k
      = (g.intel_reveal pid k).map (fun x => setAlive x pid b) := by
  unfold Game.intel_reveal
  rw [show (setAlive g pid b).players = (g.players.set pid
      { g.players.getD pid default with alive := b }) from rfl,
    list_get?_set_self _ _ _ hpid, list_get?_getD _ _ default hpid,
    Option.map_some', Option.map_some', Option.map_some']
  rfl

theorem capture_setAlive (g : Game) (pid : Nat) (b : Bool)
    (hpid : pid < g.players.length) :
    (setAlive g pid b).capture pid
      = (g.capture pid).map (fun x => setAlive x pid b) := by
  unfold Game.capture
  rw [show (setAlive g pid b).players = (g.players.set pid
      { g.players.getD pid default with alive := b }) from rfl,
    list_get?_set_self _ _ _ hpid, list_get?_getD _ _ default hpid,
    Option.some_bind, Option.some_bind]
  show ((setAlive g pid b).cities.nodes.get?
      (g.players.getD pid default).location).map _
    = ((g.cities.nodes.get? (g.players.getD pid default).location).map _).map _
  rw [setAlive_cities]
  cases hloc : g.cities.nodes.get? (g.players.getD pid default).location with
  | none => rfl
  | some loc =>
    rw [Option.map_some', Option.map_some', Option.map_some']
    rfl

theorem filter_map_set_congr {α β} (l : List α) (i : Nat) (x y : α)
    (cond : α → Bool) (f : α → β) (hc : cond x = cond y) (hf : f x = f y) :
    ((l.set i x).filter cond).map f = ((l.set i y).filter cond).map f := by
  induction l generalizing i with
  | nil => rfl
  | cons p t ih =>
    cases i with
    | zero =>
      simp only [List.set_cons_zero, List.filter_cons, hc]
      by_cases h : cond y = true
      · simp only [if_pos h, List.map_cons, hf]
      · simp only [if_neg h]
    | succ n =>
      simp only [List.set_cons_succ, List.filter_cons]
      by_cases h : cond p = true
      · simp only [if_pos h, List.map_cons, ih]
      · simp only [if_neg h, ih]

theorem try_move_setAlive (g : Game) (pid dest : Nat) (b : Bool)
    (hpid : pid < g.players.length) :
    (setAlive g pid b).try_move pid dest
      = (g.try_move pid dest).map (fun mg => (mg.1, setAlive mg.2 pid b)) := by
  unfold Game.try_move
  rw [show (setAlive g pid b).players = (g.players.set pid
      { g.players.getD pid default with alive := b }) from rfl,
    list_get?_set_self _ _ _ hpid, list_get?_getD _ _ default hpid,
    Option.map_some', Option.map_some', Option.map_some']
  dsimp only
  rw [show (setAlive g pid b).cities = g.cities from rfl]
  by_cases hedge : (g.cities.find_edge (g.players.getD pid default).location
      dest).isNone = true
  · rw [if_pos hedge, if_pos hedge]
  · rw [if_neg hedge, if_neg hedge]
    have hsetset : ((g.players.set pid
        { g.players.getD pid default with alive := b }).set pid
        { { g.players.getD pid default with alive := b } with
          location := dest })
        = g.players.set pid
          { { g.players.getD pid default with location := dest } with
            alive := b } := List.set_set ..
    have hlen2 : pid < (g.players.set pid
        { g.players.getD pid default with location := dest }).length := by
      simpa using hpid
    have hbase : (Game.mk g.cities
        ((g.players.set pid { g.players.getD pid default with alive := b
          }).set pid { { g.players.getD pid default with alive := b } with
            location := dest })
        (setAlive g pid b).event)
        = setAlive (Game.mk g.cities (g.players.set pid
            { g.players.getD pid default with location := dest })
            g.event) pid b := by
      rw [setAlive_event, hsetset]
      show _ = Game.mk _ ((g.players.set pid _).set pid _) _
      rw [List.set_set, list_getD_set_self _ _ _ _ hpid]
    have hscan : (((g.players.set pid { g.players.getD pid default with
        alive := b }).set pid { { g.players.getD pid default with
          alive := b } with location := dest }).getD pid default).active_scan
        = (((g.players.set pid { g.players.getD pid default with
            location := dest }).getD pid default)).active_scan := by
      rw [hsetset, list_getD_set_self _ _ _ _ hpid,
        list_getD_set_self _ _ _ _ hpid]
    have hobs : (((g.players.set pid { g.players.getD pid default with
        alive := b }).set pid { { g.players.getD pid default with
          alive := b } with location := dest }).filter (fun q =>
            dest == q.location && q.id != pid && !q.invisible)).map
          (fun q => Observation.Reveal q.id q.location)
        = (((g.players.set pid { g.players.getD pid default with
            location := dest }).filter (fun q =>
              dest == q.location && q.id != pid && !q.invisible)).map
            (fun q => Observation.Reveal q.id q.location)) := by
      rw [hsetset]
      exact filter_map_set_congr _ _ _ _ _ _ rfl rfl
    dsimp only at hsetset hbase hscan hobs ⊢
    rw [hscan]
    rw [hobs]
    rw [hbase]
    rw [foldl_note_setAlive]

theorem intel_reveal_run (g : Game) (pid : Nat) (k : IntelKind) (pl : Player)
    (hpl : g.players.get? pid = some pl) :
    g.intel_reveal pid k = some (g.broadcast (Observation.Intel (some pid)
      (if pl.hidden_signals then none else some k))) := by
  unfold Game.intel_reveal
  rw [hpl, Option.map_some']

theorem hide_signals_setAlive (g : Game) (pid : Nat) (b : Bool)
    (hpid : pid < g.players.length) :
    (setAlive g pid b).hide_signals pid
      = (g.hide_signals pid).map (fun rg => (rg.1, setAlive rg.2 pid b)) := by
  unfold Game.hide_signals
  rw [setAlive_players, list_get?_set_self _ _ _ hpid,
    list_get?_getD _ _ default hpid, Option.some_bind, Option.some_bind]
  dsimp only
  by_cases hf : (g.players.getD pid default).hidden_signals = true
  · rw [if_pos hf, if_pos hf, Option.map_some']
  · rw [if_neg hf, if_neg hf]
    simp only [Player.purchase]
    by_cases hc : IntelKind.HideSignals.cost
        > (g.players.getD pid default).intel
    · rw [if_pos hc, if_pos hc]
      dsimp only
      rw [Option.map_some']
      simp [setAlive, List.set_set, list_getD_set_self, List.length_set,
        hpid]
    · rw [if_neg hc, if_neg hc]
      dsimp only
      rw [intel_reveal_run _ pid .HideSignals
          { { g.players.getD pid default with alive := b } with
            intel := (g.players.getD pid default).intel
              - IntelKind.HideSignals.cost }
          (by rw [List.set_set]
              exact list_get?_set_self _ _ _ (by simpa using hpid)),
        intel_reveal_run _ pid .HideSignals
          { g.players.getD pid default with
            intel := (g.players.getD pid default).intel
              - IntelKind.HideSignals.cost }
          (list_get?_set_self _ _ _ (by simpa using hpid)),
        Option.map_some', Option.map_some', Option.map_some']
      simp [Game.broadcast, Event.broadcast, setAlive, List.set_set,
        list_getD_set_self, List.length_set, hpid]

theorem invisible_action_setAlive (g : Game) (pid : Nat) (b : Bool)
    (hpid : pid < g.players.length) :
    (setAlive g pid b).invisible_action pid
      = (g.invisible_action pid).map
        (fun rg => (rg.1, setAlive rg.2 pid b)) := by
  unfold Game.invisible_action
  rw [setAlive_players, list_get?_set_self _ _ _ hpid,
    list_get?_getD _ _ default hpid, Option.some_bind, Option.some_bind]
  dsimp only
  by_cases hf : (g.players.getD pid default).invisible = true
  · rw [if_pos hf, if_pos hf, Option.map_some']
  · rw [if_neg hf, if_neg hf]
    simp only [Player.purchase]
    by_cases hc : IntelKind.Invisible.cost
        > (g.players.getD pid default).intel
    · rw [if_pos hc, if_pos hc]
      dsimp only
      rw [Option.map_some']
      simp [setAlive, List.set_set, list_getD_set_self, List.length_set,
        hpid]
    · rw [if_neg hc, if_neg hc]
      dsimp only
      rw [intel_reveal_run _ pid .Invisible
          { { g.players.getD pid default with alive := b } with
            intel := (g.players.getD pid default).intel
              - IntelKind.Invisible.cost }
          (by rw [List.set_set]
              exact list_get?_set_self _ _ _ (by simpa using hpid)),
        intel_reveal_run _ pid .Invisible
          { g.players.getD pid default with
            intel := (g.players.getD pid default).intel
              - IntelKind.Invisible.cost }
          (list_get?_set_self _ _ _ (by simpa using hpid)),
        Option.map_some', Option.map_some', Option.map_some']
      simp [Game.broadcast, Event.broadcast, setAlive, List.set_set,
        list_getD_set_self, List.length_set, hpid]

theorem list_get?_set_ne {α} (l : List α) {n m : Nat} (a : α) (h : m ≠ n) :
    (l.set n a).get? m = l.get? m := by
  simp [List.get?_eq_getElem?, List.getElem?_set_ne (Ne.symm h)]

theorem filterMap_set_congr {α β} (l : List α) (i : Nat) (x y : α)
    (f : α → Option β) (hf : f x = f y) :
    (l.set i x).filterMap f = (l.set i y).filterMap f := by
  induction l generalizing i with
  | nil => rfl
  | cons p tl ih =>
    cases i with
    | zero => simp [List.filterMap_cons, hf]
    | succ n => simp [List.filterMap_cons, ih]

theorem reveal_action_setAlive (g : Game) (pid : Nat) (t : Option Nat)
    (b : Bool) (hpid : pid < g.players.length) :
    (setAlive g pid b).reveal_action pid t
      = (g.reveal_action pid t).map
        (fun rg => (rg.1, setAlive rg.2 pid b)) := by
  unfold Game.reveal_action
  rw [setAlive_players, list_get?_set_self _ _ _ hpid,
    list_get?_getD _ _ default hpid, Option.some_bind, Option.some_bind]
  dsimp only
  rw [show (setAlive g pid b).cities = g.cities from rfl,
    show (setAlive g pid b).event = g.event from rfl]
  simp only [Player.purchase]
  by_cases hc : IntelKind.Reveal.cost > (g.players.getD pid default).intel
  · simp only [if_pos hc]
    rw [Option.map_some']
    simp [setAlive, List.set_set, list_getD_set_self, List.length_set, hpid]
  · simp only [if_neg hc]
    simp only [List.set_set, list_getD_set_self, hpid]
    have hbase : (Game.mk g.cities (g.players.set pid
        { { g.players.getD pid default with alive := b } with
          intel := (g.players.getD pid default).intel
            - IntelKind.Reveal.cost }) g.event)
        = setAlive (Game.mk g.cities (g.players.set pid
          { g.players.getD pid default with
            intel := (g.players.getD pid default).intel
              - IntelKind.Reveal.cost }) g.event) pid b := by
      simp [setAlive, List.set_set, list_getD_set_self, List.length_set,
        hpid]
    dsimp only at hbase
    cases t with
    | some tt =>
      dsimp only
      by_cases htp : tt = pid
      · rw [htp]
        rw [list_get?_set_self _ _ _ hpid, list_get?_set_self _ _ _ hpid,
          Option.some_bind, Option.some_bind]
        dsimp only
        by_cases hiv : (!(g.players.getD pid default).invisible) = true
        · rw [if_pos hiv, if_pos hiv, hbase, note_setAlive,
            intel_reveal_setAlive _ _ _ _ (by simpa [Game.note, List.length_set] using hpid),
            Option.map_map, Option.map_map]
          rfl
        · rw [if_neg hiv, if_neg hiv, hbase, note_setAlive,
            intel_reveal_setAlive _ _ _ _ (by simpa [Game.note, List.length_set] using hpid),
            Option.map_map, Option.map_map]
          rfl
      · rw [list_get?_set_ne _ _ htp, list_get?_set_ne _ _ htp]
        cases hpt : g.players.get? tt with
        | none => rfl
        | some pt =>
          rw [Option.some_bind, Option.some_bind]
          by_cases hiv : (!pt.invisible) = true
          · rw [if_pos hiv, if_pos hiv, hbase, note_setAlive,
              intel_reveal_setAlive _ _ _ _ (by simpa [Game.note, List.length_set] using hpid),
              Option.map_map, Option.map_map]
            rfl
          · rw [if_neg hiv, if_neg hiv, hbase, note_setAlive,
              intel_reveal_setAlive _ _ _ _ (by simpa [Game.note, List.length_set] using hpid),
              Option.map_map, Option.map_map]
            rfl
    | none =>
      dsimp only
      have hrv : (g.players.set pid
          { { g.players.getD pid default with alive := b } with
            intel := (g.players.getD pid default).intel
              - IntelKind.Reveal.cost }).filterMap (fun q =>
            if q.id ≠ pid then
              if (!q.invisible && q.location
                  == (g.players.getD pid default).location) = true then
                some (Observation.Reveal q.id q.location)
              else some (Observation.RevealFailure q.id)
            else none)
          = (g.players.set pid
            { g.players.getD pid default with
              intel := (g.players.getD pid default).intel
                - IntelKind.Reveal.cost }).filterMap (fun q =>
              if q.id ≠ pid then
                if (!q.invisible && q.location
                    == (g.players.getD pid default).location) = true then
                  some (Observation.Reveal q.id q.location)
                else some (Observation.RevealFailure q.id)
              else none) := filterMap_set_congr _ _ _ _ _ rfl
      dsimp only at hrv
      rw [hrv]
      rw [hbase, foldl_note_setAlive,
        intel_reveal_setAlive _ _ _ _
          (by simpa [foldl_note_players, List.length_set] using hpid),
        Option.map_map, Option.map_map]
      rfl

theorem strikeStep_setAlive (g : Game) (pid i : Nat) (b : Bool)
    (hpid : pid < g.players.length) (hi : i < g.players.length) :
    strikeStep pid (setAlive g pid b) i
      = setAlive (strikeStep pid g i) pid b := by
  by_cases hip : i ≠ pid
  · have hpi : pid ≠ i := fun h => hip h.symm
    have hiset : i < (g.players.set pid
        { g.players.getD pid default with alive := b }).length := by
      simpa using hi
    simp only [strikeStep, if_pos hip, setAlive_players, setAlive_cities,
      setAlive_event, list_getD_set_self _ _ _ _ hpid,
      list_getD_set_ne _ _ _ hip]
    by_cases hco : (g.players.getD pid default).location
        = (g.players.getD i default).location
    · simp only [if_pos hco, game_note_players,
        list_getD_set_self _ _ _ _ hiset, list_getD_set_self _ _ _ _ hi,
        list_getD_set_ne _ _ _ hpi, list_getD_set_self _ _ _ _ hpid,
        Bool.not_false, Bool.or_true, if_true]
      have hmk : (Game.mk g.cities ((g.players.set pid
          { g.players.getD pid default with alive := b }).set i
          { g.players.getD i default with alive := false }) g.event)
          = setAlive (Game.mk g.cities (g.players.set i
            { g.players.getD i default with alive := false }) g.event)
            pid b := by
        show _ = Game.mk g.cities ((g.players.set i
          { g.players.getD i default with alive := false }).set pid
          { (g.players.set i { g.players.getD i default with
              alive := false }).getD pid default with alive := b }) g.event
        rw [list_getD_set_ne _ _ _ hpi]
        exact congrArg (fun P => Game.mk g.cities P g.event)
          (List.set_comm _ _ _ hpi)
      dsimp only at hmk
      rw [hmk, note_setAlive, note_setAlive, note_setAlive]
    · simp only [if_neg hco, game_note_players, setAlive_players,
        list_getD_set_ne _ _ _ hip, list_getD_set_self _ _ _ _ hpid]
      split <;> rw [note_setAlive]
  · simp only [strikeStep, if_neg hip]

theorem strike_fold_setAlive (pid : Nat) (b : Bool) (L : List Nat)
    (g : Game) (hpid : pid < g.players.length)
    (hL : ∀ j ∈ L, j < g.players.length) :
    L.foldl (strikeStep pid) (setAlive g pid b)
      = setAlive (L.foldl (strikeStep pid) g) pid b := by
  induction L generalizing g with
  | nil => rfl
  | cons i t ih =>
    rw [List.foldl_cons, List.foldl_cons,
      strikeStep_setAlive g pid i b hpid (hL i (List.mem_cons_self i t))]
    exact ih (strikeStep pid g i)
      (by rw [strikeStep_players_length]; exact hpid)
      (fun j hj => by
        rw [strikeStep_players_length]
        exact hL j (List.mem_cons.mpr (Or.inr hj)))

theorem strike_setAlive (g : Game) (pid : Nat) (b : Bool)
    (hpid : pid < g.players.length) :
    (setAlive g pid b).strike pid
      = (g.strike pid).map (fun x => setAlive x pid b) := by
  unfold Game.strike
  rw [setAlive_length, if_pos hpid, if_pos hpid, Option.map_some']
  exact congrArg some (strike_fold_setAlive pid b
    (List.range g.players.length) g hpid
    (fun j hj => List.mem_range.mp hj))

/-- C10: `do_action` never inspects the acting player's `alive` flag.
Formally, running any action for `pid` on a state whose `alive` flag for
`pid` has been forced to an arbitrary value `b` yields exactly the same
success/failure outcome and the same post-state up to that (untouched)
flag: the run commutes with `setAlive`.  In particular a dead player can
still move, strike, capture and purchase exactly as a living one. -/
theorem do_action_alive_blind (g : Game) (pid : Nat) (a : Action) (b : Bool)
    (hpid : pid < g.players.length) :
    (setAlive g pid b).do_action pid a
      = (g.do_action pid a).map (fun rg => (rg.1, setAlive rg.2 pid b)) := by
  cases a with
  | Strike =>
    show ((setAlive g pid b).strike pid).map _ = _
    rw [strike_setAlive g pid b hpid, Option.map_map]
    show _ = ((g.strike pid).map _).map _
    rw [Option.map_map]
    rfl
  | Wait => rfl
  | Capture =>
    show ((setAlive g pid b).capture pid).map _ = _
    rw [capture_setAlive g pid b hpid, Option.map_map]
    show _ = ((g.capture pid).map _).map _
    rw [Option.map_map]
    rfl
  | HideSignals => exact hide_signals_setAlive g pid b hpid
  | Invisible => exact invisible_action_setAlive g pid b hpid
  | Prepare =>
    show ((setAlive g pid b).prepare pid).map _ = _
    rw [prepare_setAlive g pid b hpid, Option.map_map]
    show _ = ((g.prepare pid).map _).map _
    rw [Option.map_map]
    rfl
  | Move dest =>
    show ((setAlive g pid b).try_move pid dest).map _ = _
    rw [try_move_setAlive g pid dest b hpid, Option.map_map]
    show _ = ((g.try_move pid dest).map _).map _
    rw [Option.map_map]
    rfl
  | Reveal t => exact reveal_action_setAlive g pid t b hpid

/-- Witness for C10: a freshly killed demo player striking is processed
exactly as a living one, up to its own `alive` flag. -/
theorem do_action_alive_blind_witness :
    (setAlive (wDemo.spawn_player 0).2 0 false).do_action 0 .Strike
      = ((wDemo.spawn_player 0).2.do_action 0 .Strike).map
        (fun rg => (rg.1, setAlive rg.2 0 false)) :=
  do_action_alive_blind (wDemo.spawn_player 0).2 0 .Strike false (by decide)

end Esgea
